import Mathlib

/-!
Verification of the duplicate-detection and quality-comparison core of the
`process-media` repository, shallowly embedded in Lean 4.

Conventions of the embedding:
* Python `float` arithmetic on sizes, durations and ratios is modelled with
  exact rationals (`ℚ`); Python integer division-by-zero (`ZeroDivisionError`)
  and `OSError` from `stat()` are modelled with `Except PyErr`.
* Filesystem interaction is modelled by oracles: a candidate record carries the
  result of its `Path.exists()` probe and of its subsequent `Path.stat()` call
  separately, because the source performs them as two distinct syscalls (a file
  can vanish in between).
* Human-readable reason strings are modelled as inductive tags carrying the
  same numeric payloads that the source interpolates into its f-strings.
-/

namespace ProcessMedia

/-- Python exceptions that the embedded code can raise. -/
inductive PyErr where
  | osError    -- `OSError` raised by `Path.stat()`
  | zeroDiv    -- `ZeroDivisionError`
  deriving DecidableEq, Repr

/-! ## `duplicate_detector.py`: data model -/

/-- `MatchConfidence` enum from `duplicate_detector.py`. -/
inductive MatchConfidence where
  | none | low | medium | high | exact
  deriving DecidableEq, Repr

/-- `QualityInfo` dataclass from `duplicate_detector.py`: video quality
metrics as extracted by ffprobe. -/
structure QualityInfo where
  codec : String
  width : ℕ
  height : ℕ
  bitrate : ℕ
  duration : ℚ
  file_size : ℕ
  deriving DecidableEq, Repr

/-- `QualityInfo.pixels`: total pixels (resolution). -/
def QualityInfo.pixels (q : QualityInfo) : ℕ := q.width * q.height

/-- `QualityInfo.bits_per_pixel_per_second`: returns 0 when `pixels == 0`
or `duration == 0`, else `bitrate / pixels`. -/
def QualityInfo.bits_per_pixel_per_second (q : QualityInfo) : ℚ :=
  if q.pixels = 0 ∨ q.duration = 0 then 0
  else (q.bitrate : ℚ) / (q.pixels : ℚ)

/-- Reason tags for the seven return sites of `compare_quality`, carrying the
numeric payloads the source interpolates into the reason strings. -/
inductive CmpReason where
  | srcHigherRes (sw sh ew eh : ℕ)
  | exHigherRes (ew eh sw sh : ℕ)
  | srcBetterCodec (sc ec : String)
  | exBetterCodec (ec sc : String)
  | exBloat (ratio : ℚ)
  | srcBloat (invRatio : ℚ)
  | exLargerPreferSmaller (ratio : ℚ)
  | srcLargerPreferSmaller (invRatio : ℚ)
  | similarKeepExisting
  deriving DecidableEq, Repr

/-- The HEVC codec family set `{'hevc', 'h265', 'libx265'}` membership test
(applied to the lowercased codec name), from `compare_quality`. -/
def isHevcCodec (codec : String) : Bool :=
  codec.toLower = "hevc" ∨ codec.toLower = "h265" ∨ codec.toLower = "libx265"

/-- `compare_quality(source, existing)` from `duplicate_detector.py`.
Returns `(prefer_existing, reason)`.  The f-string of the `size_ratio < 0.5`
branch computes `1/size_ratio`, which raises `ZeroDivisionError` when
`size_ratio` is `0.0` (existing file empty, source non-empty); that raise is
modelled as `.error .zeroDiv`. -/
def compare_quality (source existing : QualityInfo) :
    Except PyErr (Bool × CmpReason) :=
  if (source.pixels : ℚ) > (existing.pixels : ℚ) * (11/10) then
    .ok (false, .srcHigherRes source.width source.height existing.width existing.height)
  else if (existing.pixels : ℚ) > (source.pixels : ℚ) * (11/10) then
    .ok (true, .exHigherRes existing.width existing.height source.width source.height)
  else if isHevcCodec source.codec ∧ ¬ isHevcCodec existing.codec then
    .ok (false, .srcBetterCodec source.codec existing.codec)
  else if isHevcCodec existing.codec ∧ ¬ isHevcCodec source.codec then
    .ok (true, .exBetterCodec existing.codec source.codec)
  else
    let size_ratio : ℚ :=
      if 0 < source.file_size then (existing.file_size : ℚ) / (source.file_size : ℚ) else 1
    if size_ratio > 2 then
      .ok (false, .exBloat size_ratio)
    else if size_ratio < 1/2 then
      if size_ratio = 0 then .error .zeroDiv
      else .ok (true, .srcBloat (1 / size_ratio))
    else if size_ratio > 6/5 then
      .ok (false, .exLargerPreferSmaller size_ratio)
    else if size_ratio < 83/100 then
      .ok (true, .srcLargerPreferSmaller (1 / size_ratio))
    else
      .ok (true, .similarKeepExisting)

/-! ## `duplicate_detector.py`: date pattern extraction -/

/-- Matches the regex `\d{8}_\d{6}` at the head of the character list. -/
def datePatternAtHead : List Char → Bool
  | a :: b :: c :: d :: e :: f :: g :: h :: u :: i :: j :: k :: l :: m :: n :: _ =>
      a.isDigit && b.isDigit && c.isDigit && d.isDigit &&
      e.isDigit && f.isDigit && g.isDigit && h.isDigit &&
      (u = '_') &&
      i.isDigit && j.isDigit && k.isDigit && l.isDigit && m.isDigit && n.isDigit
  | _ => false

/-- Leftmost occurrence of the `\d{8}_\d{6}` pattern in a character list
(`re.search` semantics: earliest start position wins). -/
def findDatePattern : List Char → Option (List Char)
  | [] => none
  | c :: rest =>
      if datePatternAtHead (c :: rest) then some ((c :: rest).take 15)
      else findDatePattern rest

/-- `extract_date_pattern(filename)` from `duplicate_detector.py`:
`re.search(r'(\d{8}_\d{6})', filename)`, returning the matched 15-character
group or `None`. -/
def extract_date_pattern (filename : String) : Option String :=
  (findDatePattern filename.data).map fun cs => String.mk cs

/-! ## `duplicate_detector.py`: `DuplicateDetector.find_duplicate` -/

/-- One indexed candidate file, as `find_duplicate` observes it.  `existsB` is
the result of the `candidate_path.exists()` probe; `statSize` is the result of
the later `candidate_path.stat().st_size` call (`none` = the call raises
`OSError`, which can happen even after `exists()` returned true, since they
are separate syscalls); `duration` is `self._get_duration(candidate_path)`
(that helper catches all its own errors and returns `None` on failure);
`quality` is `get_video_quality(candidate_path)` (likewise total). -/
structure Cand where
  path : String
  existsB : Bool
  statSize : Option ℕ
  duration : Option ℚ
  quality : Option QualityInfo
  deriving DecidableEq, Repr

/-- The source file as `find_duplicate` observes it.  `isVideo` models
`source_path.suffix.lower() in VIDEO_EXTENSIONS`; `statSize` is
`source_path.stat().st_size` (`none` = raises); `duration` is
`self._get_duration(source_path)`; `quality` is
`get_video_quality(source_path)`. -/
structure SourceFile where
  name : String
  existsB : Bool
  statSize : Option ℕ
  isVideo : Bool
  duration : Option ℚ
  quality : Option QualityInfo

/-- Reason tags for the return sites of `find_duplicate`, with the payloads
the source interpolates into its reason strings. -/
inductive DupReason where
  | srcMissing
  | noDatePattern
  | noCandidates (pattern : String)
  | exactMatch (srcDuration : ℚ) (exactSize : Bool)
  | sameDatePattern (exactSize : Bool)
  | differentEncoding (r : CmpReason)
  | qualityAnalysisFailed
  | dateOnly (numCandidates : ℕ)
  deriving DecidableEq, Repr

/-- `DuplicateResult` dataclass from `duplicate_detector.py`. -/
structure DuplicateResult where
  is_duplicate : Bool
  confidence : MatchConfidence
  existing_path : Option String
  prefer_existing : Bool
  reason : DupReason
  source_quality : Option QualityInfo := none
  existing_quality : Option QualityInfo := none
  deriving DecidableEq, Repr

/-- Tolerances of `DuplicateDetector.__init__`
(`duration_tolerance=1.0`, `size_tolerance=0.20`). -/
structure DetectorConfig where
  duration_tolerance : ℚ := 1
  size_tolerance : ℚ := 1/5

/-- The body of `find_duplicate`'s `for candidate_path in candidates` loop
for a video source with a known duration `sd`.  `.ok none` means the loop
fell through without returning. -/
def checkVideoCandidates (cfg : DetectorConfig) (src : SourceFile)
    (source_size : ℕ) (sd : ℚ) :
    List Cand → Except PyErr (Option DuplicateResult)
  | [] => .ok none
  | c :: rest =>
    if ¬ c.existsB then checkVideoCandidates cfg src source_size sd rest
    else
      match c.statSize with
      | none => .error .osError
      | some candidate_size =>
        match c.duration with
        | none => checkVideoCandidates cfg src source_size sd rest
        | some cd =>
          if |sd - cd| > cfg.duration_tolerance then
            checkVideoCandidates cfg src source_size sd rest
          else if min source_size candidate_size = 0 then
            -- `size_ratio = max(...) / min(...)` raises ZeroDivisionError
            .error .zeroDiv
          else
            let size_diff_pct : ℚ :=
              |(source_size : ℚ) - (candidate_size : ℚ)| /
                (max source_size candidate_size : ℕ)
            if size_diff_pct ≤ cfg.size_tolerance then
              .ok (some
                { is_duplicate := true
                  confidence := if size_diff_pct ≤ 1/100 then .exact else .high
                  existing_path := some c.path
                  prefer_existing := true
                  reason := .exactMatch sd (size_diff_pct ≤ 1/100) })
            else
              match src.quality, c.quality with
              | some sq, some eq_ =>
                match compare_quality sq eq_ with
                | .error e => .error e
                | .ok (prefer_existing, quality_reason) =>
                  .ok (some
                    { is_duplicate := true
                      confidence := .medium
                      existing_path := some c.path
                      prefer_existing := prefer_existing
                      reason := .differentEncoding quality_reason
                      source_quality := some sq
                      existing_quality := some eq_ })
              | _, _ =>
                .ok (some
                  { is_duplicate := true
                    confidence := .medium
                    existing_path := some c.path
                    prefer_existing := true
                    reason := .qualityAnalysisFailed })

/-- The loop body for a non-video source (or a video without an extractable
duration): size-only comparison. -/
def checkSizeCandidates (cfg : DetectorConfig) (source_size : ℕ) :
    List Cand → Except PyErr (Option DuplicateResult)
  | [] => .ok none
  | c :: rest =>
    if ¬ c.existsB then checkSizeCandidates cfg source_size rest
    else
      match c.statSize with
      | none => .error .osError
      | some candidate_size =>
        if max source_size candidate_size = 0 then
          -- `abs(...) / max(...)` raises ZeroDivisionError
          .error .zeroDiv
        else
          let size_diff_pct : ℚ :=
            |(source_size : ℚ) - (candidate_size : ℚ)| /
              (max source_size candidate_size : ℕ)
          if size_diff_pct ≤ cfg.size_tolerance then
            .ok (some
              { is_duplicate := true
                confidence := if size_diff_pct ≤ 1/100 then .exact else .high
                existing_path := some c.path
                prefer_existing := true
                reason := .sameDatePattern (size_diff_pct ≤ 1/100) })
          else checkSizeCandidates cfg source_size rest

/-- `DuplicateDetector.find_duplicate(source_path)`.  The candidate index is
`self._date_pattern_index` modelled as a function from date patterns to
candidate lists. -/
def find_duplicate (cfg : DetectorConfig) (src : SourceFile)
    (index : String → List Cand) : Except PyErr DuplicateResult :=
  if ¬ src.existsB then
    .ok { is_duplicate := false, confidence := .none, existing_path := none
          prefer_existing := false, reason := .srcMissing }
  else
    match extract_date_pattern src.name with
    | none =>
      .ok { is_duplicate := false, confidence := .none, existing_path := none
            prefer_existing := false, reason := .noDatePattern }
    | some date_pattern =>
      match index date_pattern with
      | [] =>
        .ok { is_duplicate := false, confidence := .none, existing_path := none
              prefer_existing := false, reason := .noCandidates date_pattern }
      | c₀ :: cs =>
        match src.statSize with
        | none => .error .osError
        | some source_size =>
          let source_duration : Option ℚ :=
            if src.isVideo then src.duration else none
          let looped :=
            match source_duration with
            | some sd => checkVideoCandidates cfg src source_size sd (c₀ :: cs)
            | none => checkSizeCandidates cfg source_size (c₀ :: cs)
          match looped with
          | .error e => .error e
          | .ok (some r) => .ok r
          | .ok none =>
            .ok { is_duplicate := false, confidence := .low
                  existing_path := some c₀.path
                  prefer_existing := false
                  reason := .dateOnly (c₀ :: cs).length }

/-! ## `analyze_photo_quality.py`: `ImageAnalysisCache` -/

/-- A filesystem stat result: the `(st_mtime, st_size)` pair used for cache
invalidation. -/
structure FileStat where
  mtime : ℚ
  size : ℕ
  deriving DecidableEq, Repr

/-- The filesystem as an oracle: `stat` per resolved path, `none` meaning
`Path.stat()` raises `OSError`. -/
def FS := String → Option FileStat

/-- One cache entry: the stored `(mtime, size)` pair plus any subset of the
fields `blur`, `md5`, `phash`, `exif_date` (absent dict keys are `none`). -/
structure CacheEntry where
  mtime : ℚ
  size : ℕ
  blur : Option ℚ := none
  md5 : Option String := none
  phash : Option String := none
  exif_date : Option ℚ := none
  deriving DecidableEq, Repr

/-- The in-memory cache dict of `ImageAnalysisCache` (keys are resolved
absolute path strings) together with the dirty flag. -/
structure CacheState where
  cache : String → Option CacheEntry
  dirty : Bool

/-- The empty cache (fresh `ImageAnalysisCache` with no file on disk). -/
def emptyCache : CacheState := ⟨fun _ => none, false⟩

/-- `ImageAnalysisCache._is_valid(file_path, entry)`: stored `(mtime, size)`
must equal the file's current stat; a stat `OSError` yields `False`. -/
def cacheIsValid (fs : FS) (key : String) (e : CacheEntry) : Bool :=
  match fs key with
  | some st => e.mtime = st.mtime ∧ e.size = st.size
  | none => false

/-- Pointwise update of the cache dict at one key. -/
def CacheState.insert (c : CacheState) (key : String) (e : CacheEntry) :
    CacheState :=
  ⟨fun k => if k = key then some e else c.cache k, true⟩

/-- `ImageAnalysisCache.get_blur`. -/
def get_blur (fs : FS) (key : String) (c : CacheState) : Option ℚ :=
  match c.cache key with
  | none => none
  | some e => if cacheIsValid fs key e then e.blur else none

/-- `ImageAnalysisCache.set_blur`: a stat failure returns without touching the
cache; otherwise the current `(mtime, size)` is written, the `blur` field is
set, and — when the key already exists — all other fields of the old entry
are kept as they were. -/
def set_blur (fs : FS) (key : String) (blur_score : ℚ) (c : CacheState) :
    CacheState :=
  match fs key with
  | none => c
  | some st =>
    match c.cache key with
    | some e => c.insert key { e with mtime := st.mtime, size := st.size, blur := some blur_score }
    | none => c.insert key { mtime := st.mtime, size := st.size, blur := some blur_score }

/-- `ImageAnalysisCache.get_hashes`: returns the pair only when the entry is
valid and both `md5` and `phash` are present and truthy (Python's `and` treats
an empty string as false). -/
def get_hashes (fs : FS) (key : String) (c : CacheState) :
    Option (String × String) :=
  match c.cache key with
  | none => none
  | some e =>
    if cacheIsValid fs key e then
      match e.md5, e.phash with
      | some m, some p => if m ≠ "" ∧ p ≠ "" then some (m, p) else none
      | _, _ => none
    else none

/-- `ImageAnalysisCache.set_hashes`. -/
def set_hashes (fs : FS) (key : String) (md5_hash phash : String)
    (c : CacheState) : CacheState :=
  match fs key with
  | none => c
  | some st =>
    match c.cache key with
    | some e => c.insert key { e with mtime := st.mtime, size := st.size,
                                      md5 := some md5_hash, phash := some phash }
    | none => c.insert key { mtime := st.mtime, size := st.size,
                             md5 := some md5_hash, phash := some phash }

/-- `ImageAnalysisCache.get_exif_date`: returns `entry.get('exif_date')` for a
valid entry — in particular the in-band value `0` ("checked, no timestamp
embedded") is returned as `some 0`, distinguished from the absent-key `none`. -/
def get_exif_date (fs : FS) (key : String) (c : CacheState) : Option ℚ :=
  match c.cache key with
  | none => none
  | some e => if cacheIsValid fs key e then e.exif_date else none

/-- `ImageAnalysisCache.set_exif_date`. -/
def set_exif_date (fs : FS) (key : String) (timestamp : ℚ) (c : CacheState) :
    CacheState :=
  match fs key with
  | none => c
  | some st =>
    match c.cache key with
    | some e => c.insert key { e with mtime := st.mtime, size := st.size,
                                      exif_date := some timestamp }
    | none => c.insert key { mtime := st.mtime, size := st.size,
                             exif_date := some timestamp }

/-- A cache field name, for stating field-generic properties of the
getter/setter pairs. -/
inductive CField where
  | blur | hashes | exifDate
  deriving DecidableEq, Repr

/-- A value for a cache field (the field is determined by the constructor). -/
inductive CVal where
  | blurV (score : ℚ)
  | hashesV (md5 phash : String)
  | exifV (timestamp : ℚ)
  deriving DecidableEq, Repr

/-- The field a `CVal` belongs to. -/
def CVal.field : CVal → CField
  | .blurV _ => .blur
  | .hashesV _ _ => .hashes
  | .exifV _ => .exifDate

/-- Field-generic `set`: dispatches to the source's three setters. -/
def cacheSet (fs : FS) (key : String) (v : CVal) (c : CacheState) : CacheState :=
  match v with
  | .blurV s => set_blur fs key s c
  | .hashesV m p => set_hashes fs key m p c
  | .exifV t => set_exif_date fs key t c

/-- Field-generic `get`: dispatches to the source's three getters. -/
def cacheGet (fs : FS) (key : String) (f : CField) (c : CacheState) :
    Option CVal :=
  match f with
  | .blur => (get_blur fs key c).map .blurV
  | .hashes => (get_hashes fs key c).map fun mp => .hashesV mp.1 mp.2
  | .exifDate => (get_exif_date fs key c).map .exifV

/-! ## `analyze_photo_quality.py`: `hamming_distance` -/

/-- Number of 1 bits in the binary representation (`bin(n).count('1')`). -/
def popCount : ℕ → ℕ
  | 0 => 0
  | n + 1 => (n + 1) % 2 + popCount ((n + 1) / 2)
decreasing_by exact Nat.div_lt_self (Nat.succ_pos n) (by omega)

/-- Parse one hexadecimal digit (as accepted by Python's `int(_, 16)`). -/
def hexDigitVal (c : Char) : Option ℕ :=
  if '0' ≤ c ∧ c ≤ '9' then some (c.toNat - '0'.toNat)
  else if 'a' ≤ c ∧ c ≤ 'f' then some (c.toNat - 'a'.toNat + 10)
  else if 'A' ≤ c ∧ c ≤ 'F' then some (c.toNat - 'A'.toNat + 10)
  else none

/-- Parse a non-empty hex string to a natural number; `none` models the
`ValueError` that `int(s, 16)` raises on malformed input. -/
def parseHex (s : String) : Option ℕ :=
  if s.data = [] then none
  else
    s.data.foldl
      (fun acc c =>
        match acc, hexDigitVal c with
        | some a, some d => some (a * 16 + d)
        | _, _ => none)
      (some 0)

/-- Extended distance: a finite bit count or `float('inf')`. -/
inductive HammingDist where
  | fin (n : ℕ)
  | inf
  deriving DecidableEq, Repr

/-- `hamming_distance(hash1, hash2)` from `analyze_photo_quality.py`:
`None` on either side gives `float('inf')`; otherwise parse both hex strings,
XOR, and count the 1 bits.  The outer `none` models the `ValueError` raised by
`int(_, 16)` on a malformed hash string. -/
def hamming_distance (hash1 hash2 : Option String) :
    Option HammingDist :=
  match hash1, hash2 with
  | none, _ => some .inf
  | _, none => some .inf
  | some h1, some h2 =>
    match parseHex h1, parseHex h2 with
    | some n1, some n2 => some (.fin (popCount (n1 ^^^ n2)))
    | _, _ => none

/-! ## `analyze_photo_quality.py`: `calculate_image_ssim`

The source operates on two grayscale `float64` arrays of equal shape (images
are resized to the smaller common dimensions and converted to grayscale
first), computes local means/variances/covariance with an 11×11 Gaussian blur
(σ=1.5, a normalized non-negative convolution kernel with reflected borders),
forms the per-pixel SSIM map with `c1 = 6.5025`, `c2 = 58.5225`, and returns
the map's mean.  The embedding takes the post-resize, post-grayscale pixel
field (flattened to `Fin n → ℚ`) and the blur as an explicit per-pixel weight
row `W p : Fin n → ℚ`; the properties of OpenCV's Gaussian kernel that the
proofs use (every weight non-negative, each row summing to 1) are hypotheses
of the theorems. -/

/-- `c1 = 6.5025 = (0.01 * 255) ** 2`. -/
def ssimC1 : ℚ := 65025 / 10000

/-- `c2 = 58.5225 = (0.03 * 255) ** 2`. -/
def ssimC2 : ℚ := 585225 / 10000

/-- Weighted mean of `x` under weight row `w` (one output pixel of a
convolution). -/
def wmean {n : ℕ} (w x : Fin n → ℚ) : ℚ := ∑ q, w q * x q

/-- The per-pixel SSIM map of `calculate_image_ssim`:
`((2*mu1_mu2 + c1) * (2*sigma12 + c2)) /
 ((mu1_sq + mu2_sq + c1) * (sigma1_sq + sigma2_sq + c2))`. -/
def ssimMap {n : ℕ} (W : Fin n → Fin n → ℚ) (x y : Fin n → ℚ) (p : Fin n) : ℚ :=
  let mu1 := wmean (W p) x
  let mu2 := wmean (W p) y
  let sigma1_sq := wmean (W p) (fun q => x q * x q) - mu1 * mu1
  let sigma2_sq := wmean (W p) (fun q => y q * y q) - mu2 * mu2
  let sigma12 := wmean (W p) (fun q => x q * y q) - mu1 * mu2
  ((2 * (mu1 * mu2) + ssimC1) * (2 * sigma12 + ssimC2)) /
    ((mu1 * mu1 + mu2 * mu2 + ssimC1) * (sigma1_sq + sigma2_sq + ssimC2))

/-- `float(ssim_map.mean())`. -/
def ssimMean {n : ℕ} (W : Fin n → Fin n → ℚ) (x y : Fin n → ℚ) : ℚ :=
  (∑ p, ssimMap W x y p) / n

/-- `calculate_image_ssim(image1_path, image2_path)`: an unreadable input
(`read_image_opencv` returning `None`, modelled as a `none` pixel field) makes
the whole result `None`; otherwise the mean of the SSIM map. -/
def calculate_image_ssim {n : ℕ} (W : Fin n → Fin n → ℚ)
    (img1 img2 : Option (Fin n → ℚ)) : Option ℚ :=
  match img1, img2 with
  | some x, some y => some (ssimMean W x y)
  | _, _ => none

/-! ## Spec-side models (for refinement claims)

These definitions are written from the specification's words, to be compared
against the source-derived definitions above. -/

/-- Modelled from the spec (§4.7 Quality Comparator): decision order with the
first matching rule winning — (1) higher resolution if one pixel count
exceeds the other by more than 10%; (2) at equal resolution, prefer the side
whose codec is in the HEVC family if exactly one qualifies; (3) otherwise
`sizeRatio = largerFileSize / smallerFileSize`: ratio > 2.0 prefers the
smaller side, else ratio > 1.20 prefers the smaller side, else prefer the
existing side. -/
def specPrefersExisting (s e : QualityInfo) : Bool :=
  if (s.pixels : ℚ) > (e.pixels : ℚ) * (11/10) then false
  else if (e.pixels : ℚ) > (s.pixels : ℚ) * (11/10) then true
  else if isHevcCodec s.codec ∧ ¬ isHevcCodec e.codec then false
  else if isHevcCodec e.codec ∧ ¬ isHevcCodec s.codec then true
  else
    let sizeRatio : ℚ :=
      ((max s.file_size e.file_size : ℕ) : ℚ) / ((min s.file_size e.file_size : ℕ) : ℚ)
    if sizeRatio > 2 then decide (e.file_size < s.file_size)
    else if sizeRatio > 6/5 then decide (e.file_size < s.file_size)
    else true

/-- "Every branch returns a reason string naming the deciding factor": the
reason tag's payloads equal the actually-computed quantities and the named
deciding condition really holds. -/
def reasonNamesDecidingFactor (s e : QualityInfo) : CmpReason → Prop
  | .srcHigherRes sw sh ew eh =>
      sw = s.width ∧ sh = s.height ∧ ew = e.width ∧ eh = e.height ∧
      (s.pixels : ℚ) > (e.pixels : ℚ) * (11/10)
  | .exHigherRes ew eh sw sh =>
      ew = e.width ∧ eh = e.height ∧ sw = s.width ∧ sh = s.height ∧
      (e.pixels : ℚ) > (s.pixels : ℚ) * (11/10)
  | .srcBetterCodec sc ec =>
      sc = s.codec ∧ ec = e.codec ∧ isHevcCodec s.codec ∧ ¬ isHevcCodec e.codec
  | .exBetterCodec ec sc =>
      ec = e.codec ∧ sc = s.codec ∧ isHevcCodec e.codec ∧ ¬ isHevcCodec s.codec
  | .exBloat r => r = (e.file_size : ℚ) / (s.file_size : ℚ) ∧ r > 2
  | .srcBloat ir => ir = (s.file_size : ℚ) / (e.file_size : ℚ) ∧ ir > 2
  | .exLargerPreferSmaller r => r = (e.file_size : ℚ) / (s.file_size : ℚ) ∧ r > 6/5
  | .srcLargerPreferSmaller ir =>
      ir = (s.file_size : ℚ) / (e.file_size : ℚ) ∧ ir > 100/83
  | .similarKeepExisting =>
      83/100 ≤ (e.file_size : ℚ) / (s.file_size : ℚ) ∧
      (e.file_size : ℚ) / (s.file_size : ℚ) ≤ 2

/-- A candidate that `find_duplicate`'s per-candidate loop skips with
`continue` (video branch): either its `exists()` probe fails, or (its stat
succeeds and) its duration is unavailable or differs from the source duration
by more than the tolerance. -/
def videoSkip (cfg : DetectorConfig) (sd : ℚ) (c : Cand) : Prop :=
  c.existsB = false ∨
    (c.statSize ≠ none ∧
      (c.duration = none ∨
        ∃ cd, c.duration = some cd ∧ cfg.duration_tolerance < |sd - cd|))

/-- "A value is acceptable for its field": the hashes field needs both hex
strings non-empty for `get_hashes` to surface them (Python's truthiness check
`entry.get('md5') and entry.get('phash')` rejects empty strings). -/
def valOk : CVal → Prop
  | .hashesV m p => m ≠ "" ∧ p ≠ ""
  | _ => True

/-- Test filesystems for the cache claims: one file `"/f"` whose
`(mtime, size)` is `(1, 10)` before a modification and `(2, 11)` after. -/
def fsOld : FS := fun k => if k = "/f" then some ⟨1, 10⟩ else none

/-- The post-modification filesystem (see `fsOld`). -/
def fsNew : FS := fun k => if k = "/f" then some ⟨2, 11⟩ else none

/-- An entry written with `(mtime, size)` taken from a stat `st` is valid
under a later filesystem exactly when that filesystem still stats the key to
`st`. -/
theorem cacheIsValid_of_stamped (fs' : FS) (key : String) (e : CacheEntry)
    (st : FileStat) (he : e.mtime = st.mtime ∧ e.size = st.size) :
    cacheIsValid fs' key e = true ↔ fs' key = some st := by
  unfold cacheIsValid
  rcases h : fs' key with _ | st'
  · simp
  · simp only [decide_eq_true_eq, Option.some.injEq]
    obtain ⟨he1, he2⟩ := he
    constructor
    · rintro ⟨h1, h2⟩
      cases st; cases st'
      simp_all
    · rintro rfl
      exact ⟨he1, he2⟩

end ProcessMedia

namespace ProcessMedia

/-- What `cacheSet` stores in the field the value belongs to. -/
def fieldContent : CVal → CacheEntry → Prop
  | .blurV q, e => e.blur = some q
  | .hashesV m p, e => e.md5 = some m ∧ e.phash = some p
  | .exifV t, e => e.exif_date = some t

/-- Looking up the key just inserted gives the inserted entry. -/
theorem CacheState.insert_lookup (c : CacheState) (key : String)
    (e : CacheEntry) : (c.insert key e).cache key = some e := by
  simp [CacheState.insert]

/-- After a successful `set`, the entry at the key carries the current
`(mtime, size)` and the field's value. -/
theorem cacheSet_stamps (fs : FS) (key : String) (v : CVal) (c : CacheState)
    (st : FileStat) (hstat : fs key = some st) :
    ∃ e, (cacheSet fs key v c).cache key = some e ∧
      e.mtime = st.mtime ∧ e.size = st.size ∧ fieldContent v e := by
  cases v <;>
    · simp only [cacheSet, set_blur, set_hashes, set_exif_date]
      rw [hstat]
      cases hc : c.cache key <;>
        exact ⟨_, CacheState.insert_lookup _ _ _, rfl, rfl, by simp [fieldContent]⟩

/-- C3 (counterexample): with the hashes field and the (vacuous) value
`("", "x")`, a `set` immediately followed by a `get` on the untouched file
returns `None`, not the stored value — `get_hashes` refuses falsy strings. -/
theorem cache_roundtrip_empty_hash_cex :
    fsOld "/f" = some ⟨1, 10⟩ ∧
    cacheGet fsOld "/f" (CVal.hashesV "" "x").field
      (cacheSet fsOld "/f" (.hashesV "" "x") emptyCache) = none := by
  constructor
  · decide
  · simp [cacheGet, cacheSet, CVal.field, set_hashes, get_hashes, fsOld,
      emptyCache, CacheState.insert, cacheIsValid]

/-- C3 (amended): for any field whose value passes `valOk` (only the hashes
field is restricted: both strings non-empty), a `set; get` on the untouched
file returns the value; once the file's `(mtime, size)` changes — including a
stat failure — `get` returns `None`. -/
theorem cache_roundtrip_and_invalidation (fs fs' : FS) (key : String)
    (v : CVal) (c : CacheState) (st : FileStat)
    (hstat : fs key = some st) (hv : valOk v) :
    (fs' key = some st →
      cacheGet fs' key v.field (cacheSet fs key v c) = some v) ∧
    (fs' key ≠ some st →
      cacheGet fs' key v.field (cacheSet fs key v c) = none) := by
  obtain ⟨e, he, hm, hs, hf⟩ := cacheSet_stamps fs key v c st hstat
  have hval := cacheIsValid_of_stamped fs' key e st ⟨hm, hs⟩
  constructor
  · intro h
    have hv' : cacheIsValid fs' key e = true := hval.mpr h
    cases v with
    | blurV q =>
      simp only [fieldContent] at hf
      simp [CVal.field, cacheGet, get_blur, he, hv', hf]
    | hashesV m p =>
      obtain ⟨hm5, hph⟩ := hf
      obtain ⟨hne1, hne2⟩ := hv
      simp [CVal.field, cacheGet, get_hashes, he, hv', hm5, hph, hne1, hne2]
    | exifV t =>
      simp only [fieldContent] at hf
      simp [CVal.field, cacheGet, get_exif_date, he, hv', hf]
  · intro h
    have hv' : cacheIsValid fs' key e = false := by
      cases hvv : cacheIsValid fs' key e
      · rfl
      · exact absurd (hval.mp hvv) h
    cases v with
    | blurV q => simp [CVal.field, cacheGet, get_blur, he, hv']
    | hashesV m p => simp [CVal.field, cacheGet, get_hashes, he, hv']
    | exifV t => simp [CVal.field, cacheGet, get_exif_date, he, hv']

/-- Witness for `cache_roundtrip_and_invalidation`: a blur score survives a
roundtrip on the untouched file and is invalidated by the stat change from
`fsOld` to `fsNew`. -/
theorem cache_roundtrip_and_invalidation_witness :
    fsOld "/f" = some ⟨1, 10⟩ ∧ valOk (.blurV 7) ∧
    cacheGet fsOld "/f" (CVal.blurV 7).field
      (cacheSet fsOld "/f" (.blurV 7) emptyCache) = some (.blurV 7) ∧
    cacheGet fsNew "/f" (CVal.blurV 7).field
      (cacheSet fsOld "/f" (.blurV 7) emptyCache) = none :=
  ⟨by decide, trivial,
    (cache_roundtrip_and_invalidation fsOld fsOld "/f" (.blurV 7) emptyCache
      ⟨1, 10⟩ (by decide) trivial).1 (by decide),
    (cache_roundtrip_and_invalidation fsOld fsNew "/f" (.blurV 7) emptyCache
      ⟨1, 10⟩ (by decide) trivial).2 (by decide)⟩

/-- C4: the staleness bug evaluated.  With file `"/f"` stat `(1,10)`, hashes
`("aa","bb")` are cached; the file then changes to stat `(2,11)` — at that
point `get_hashes` correctly answers `none` — but a `set_blur` under the new
stat rewrites the entry's `(mtime,size)` while keeping the stale `md5`/`phash`
fields, after which `get_hashes` returns the pre-change hashes again. -/
theorem cache_stale_hashes_resurrected :
    get_hashes fsNew "/f" (set_hashes fsOld "/f" "aa" "bb" emptyCache) = none ∧
    fsOld "/f" ≠ fsNew "/f" ∧
    get_hashes fsNew "/f"
      (set_blur fsNew "/f" 5 (set_hashes fsOld "/f" "aa" "bb" emptyCache)) =
      some ("aa", "bb") := by
  refine ⟨?_, by decide, ?_⟩ <;>
    simp [fsOld, fsNew, emptyCache, set_hashes, set_blur, get_hashes,
      CacheState.insert, cacheIsValid]

/-- C5: the capture-timestamp field stores `0` in-band: after
`set_exif_date(F, 0)` a `get_exif_date(F)` returns `some 0` (not `none`) while
the file is unchanged, whereas an entry whose `exif_date` key is absent (here:
a fresh entry created by `set_blur`) yields `none`. -/
theorem exif_zero_vs_absent (fs : FS) (key : String) (c : CacheState)
    (st : FileStat) (hstat : fs key = some st) :
    get_exif_date fs key (set_exif_date fs key 0 c) = some 0 ∧
    ∀ b : ℚ, get_exif_date fs key (set_blur fs key b emptyCache) = none := by
  constructor
  · unfold set_exif_date
    rw [hstat]
    cases hc : c.cache key <;>
      simp [get_exif_date, CacheState.insert, cacheIsValid, hstat]
  · intro b
    unfold set_blur
    rw [hstat]
    simp [emptyCache, get_exif_date, CacheState.insert, cacheIsValid, hstat]

/-- Witness for `exif_zero_vs_absent` at the concrete filesystem `fsOld`. -/
theorem exif_zero_vs_absent_witness :
    fsOld "/f" = some ⟨1, 10⟩ ∧
    (get_exif_date fsOld "/f" (set_exif_date fsOld "/f" 0 emptyCache) = some 0 ∧
      ∀ b : ℚ, get_exif_date fsOld "/f" (set_blur fsOld "/f" b emptyCache) = none) :=
  ⟨by decide, exif_zero_vs_absent fsOld "/f" emptyCache ⟨1, 10⟩ (by decide)⟩

/-- C6: Hamming distance is symmetric for every pair of (optional) hashes;
is `0` on any hash that parses as hex; and is `+infinity` whenever either
argument is `None`. -/
theorem hamming_distance_props :
    (∀ a b : Option String, hamming_distance a b = hamming_distance b a) ∧
    (∀ (s : String) (n : ℕ), parseHex s = some n →
      hamming_distance (some s) (some s) = some (.fin 0)) ∧
    (∀ a : Option String,
      hamming_distance none a = some .inf ∧
      hamming_distance a none = some .inf) := by
  refine ⟨?_, ?_, ?_⟩
  · intro a b
    match a, b with
    | none, none => rfl
    | none, some _ => rfl
    | some _, none => rfl
    | some h1, some h2 =>
      simp only [hamming_distance]
      cases hp1 : parseHex h1 <;> cases hp2 : parseHex h2 <;>
        simp [hp1, hp2] <;> rw [Nat.xor_comm]
  · intro s n hp
    simp only [hamming_distance, hp]
    rw [Nat.xor_self]
    simp [popCount]
  · intro a
    cases a <;> exact ⟨rfl, rfl⟩

/-- Witness for `hamming_distance_props` at the concrete hash `"ff"`. -/
theorem hamming_distance_props_witness :
    parseHex "ff" = some 255 ∧
    hamming_distance (some "ff") (some "ff") = some (.fin 0) :=
  ⟨by decide, hamming_distance_props.2.1 "ff" 255 (by decide)⟩

/-- C8: the filesystem race evaluated.  The candidate's `exists()` probe
succeeds but its `stat()` then raises (`statSize = none`, the file vanished in
between); `find_duplicate` propagates the `OSError` instead of skipping the
candidate. -/
theorem candidate_stat_race_raises :
    find_duplicate {}
      ⟨"VID_20230101_120000.mp4", true, some 100, true, some 120, none⟩
      (fun _ => [⟨"/organized/VID_20230101_120000.mp4", true, none, some 120, none⟩]) =
      .error .osError := rfl

/-- C9 (counterexample): a `QualityInfo` with positive width and height but
zero duration has `bits_per_pixel_per_second = 0`, not `bitrate / pixelCount`
(which is `5` here). -/
theorem bits_per_pixel_zero_duration_cex :
    0 < (⟨"h264", 1, 1, 5, 0, 100⟩ : QualityInfo).width ∧
    0 < (⟨"h264", 1, 1, 5, 0, 100⟩ : QualityInfo).height ∧
    (⟨"h264", 1, 1, 5, 0, 100⟩ : QualityInfo).bits_per_pixel_per_second ≠
      ((⟨"h264", 1, 1, 5, 0, 100⟩ : QualityInfo).bitrate : ℚ) /
        ((⟨"h264", 1, 1, 5, 0, 100⟩ : QualityInfo).pixels : ℚ) := by
  refine ⟨by norm_num, by norm_num, ?_⟩
  norm_num [QualityInfo.bits_per_pixel_per_second, QualityInfo.pixels]

/-- C9 (amended): `bitsPerPixel` is `bitrate / pixelCount` when width, height
AND duration are all non-zero, and `0` when width, height or duration is
zero. -/
theorem bits_per_pixel_characterization (q : QualityInfo) :
    (q.width = 0 ∨ q.height = 0 ∨ q.duration = 0 →
      q.bits_per_pixel_per_second = 0) ∧
    (q.width ≠ 0 → q.height ≠ 0 → q.duration ≠ 0 →
      q.bits_per_pixel_per_second = (q.bitrate : ℚ) / (q.pixels : ℚ)) := by
  constructor
  · intro h
    unfold QualityInfo.bits_per_pixel_per_second
    rcases h with h | h | h <;> simp [QualityInfo.pixels, h]
  · intro hw hh hd
    unfold QualityInfo.bits_per_pixel_per_second
    rw [if_neg]
    push_neg
    exact ⟨by simp [QualityInfo.pixels]; omega, hd⟩

/-- Witness for `bits_per_pixel_characterization`: a 2×3 stream at 12 bps for
1 second has 2 bits per pixel per second. -/
theorem bits_per_pixel_characterization_witness :
    (⟨"hevc", 2, 3, 12, 1, 10⟩ : QualityInfo).width ≠ 0 ∧
    (⟨"hevc", 2, 3, 12, 1, 10⟩ : QualityInfo).height ≠ 0 ∧
    (⟨"hevc", 2, 3, 12, 1, 10⟩ : QualityInfo).duration ≠ 0 ∧
    (⟨"hevc", 2, 3, 12, 1, 10⟩ : QualityInfo).bits_per_pixel_per_second = 2 := by
  refine ⟨by norm_num, by norm_num, by norm_num, ?_⟩
  rw [(bits_per_pixel_characterization ⟨"hevc", 2, 3, 12, 1, 10⟩).2
    (by norm_num) (by norm_num) (by norm_num)]
  norm_num [QualityInfo.pixels]

/-- C10: the zero-byte division evaluated.  A zero-byte video source and a
500-byte candidate with matching durations make
`size_ratio = max(...) / min(...)` divide by zero, so `find_duplicate` raises
`ZeroDivisionError` instead of producing a decision. -/
theorem zero_byte_source_raises :
    find_duplicate {}
      ⟨"VID_20230101_120000.mp4", true, some 0, true, some 120, none⟩
      (fun _ => [⟨"/organized/VID_20230101_120000.mp4", true, some 500, some 120, none⟩]) =
      .error .zeroDiv := by
  have hpat : extract_date_pattern "VID_20230101_120000.mp4" =
      some "20230101_120000" := by decide
  simp only [find_duplicate, hpat]
  norm_num [checkVideoCandidates]

/-- Helper for the quality-comparator claim: the size-ratio ladder of
`compare_quality` agrees with the spec's `largerFileSize / smallerFileSize`
formulation once resolution and codec class have tied. -/
theorem size_ladder (s e : QualityInfo)
    (hs : 0 < s.file_size) (he : 0 < e.file_size)
    (hcodec : isHevcCodec s.codec = isHevcCodec e.codec)
    (h1 : ¬ (s.pixels : ℚ) > (e.pixels : ℚ) * (11/10))
    (h2 : ¬ (e.pixels : ℚ) > (s.pixels : ℚ) * (11/10)) :
    ∃ r, compare_quality s e = .ok (specPrefersExisting s e, r) ∧
      reasonNamesDecidingFactor s e r := by
  have hsQ : (0:ℚ) < (s.file_size : ℚ) := by exact_mod_cast hs
  have heQ : (0:ℚ) < (e.file_size : ℚ) := by exact_mod_cast he
  rcases le_or_lt e.file_size s.file_size with hle | hlt
  · -- existing no larger than source: code ratio ≤ 1, spec ratio is S/E
    have hmax : max s.file_size e.file_size = s.file_size := max_eq_left hle
    have hmin : min s.file_size e.file_size = e.file_size := min_eq_right hle
    have hleQ : (e.file_size:ℚ) ≤ (s.file_size:ℚ) := by exact_mod_cast hle
    have hr1 : (e.file_size:ℚ) / (s.file_size:ℚ) ≤ 1 :=
      div_le_one_of_le₀ hleQ hsQ.le
    have hng2 : ¬ (2 < (e.file_size:ℚ) / (s.file_size:ℚ)) := by linarith
    have hng65 : ¬ (6/5 < (e.file_size:ℚ) / (s.file_size:ℚ)) := by linarith
    have hspec : specPrefersExisting s e = true := by
      simp only [specPrefersExisting, hmax, hmin]
      rw [if_neg h1, if_neg h2]
      rw [if_neg (by simp [hcodec]), if_neg (by simp [hcodec])]
      split_ifs with hA hB
      · have h2E := (lt_div_iff₀ heQ).mp hA
        have hlt' : e.file_size < s.file_size := by
          have : (e.file_size:ℚ) < (s.file_size:ℚ) := by linarith
          exact_mod_cast this
        simp [hlt']
      · have h65E := (lt_div_iff₀ heQ).mp hB
        have hlt' : e.file_size < s.file_size := by
          have : (e.file_size:ℚ) < (s.file_size:ℚ) := by linarith
          exact_mod_cast this
        simp [hlt']
      · rfl
    rw [hspec]
    by_cases hc2 : (e.file_size:ℚ) / (s.file_size:ℚ) < 2⁻¹
    · -- source more than twice as large: srcBloat branch
      have h2E : (e.file_size:ℚ) < 2⁻¹ * (s.file_size:ℚ) := by
        rw [div_lt_iff₀ hsQ] at hc2; linarith
      refine ⟨.srcBloat ((s.file_size:ℚ) / (e.file_size:ℚ)), ?_, ?_⟩
      · simp [compare_quality, h1, h2, hcodec, hs, hng2, hc2, he.ne', hs.ne',
          one_div_div]
      · exact ⟨rfl, (lt_div_iff₀ heQ).mpr (by linarith)⟩
    · by_cases hc4 : (e.file_size:ℚ) / (s.file_size:ℚ) < 83/100
      · -- source 1.2x-2x larger: srcLargerPreferSmaller branch
        have hE83 : (e.file_size:ℚ) < 83/100 * (s.file_size:ℚ) := by
          rw [div_lt_iff₀ hsQ] at hc4; linarith
        refine ⟨.srcLargerPreferSmaller ((s.file_size:ℚ) / (e.file_size:ℚ)), ?_, ?_⟩
        · simp [compare_quality, h1, h2, hcodec, hs, hng2, hng65, hc2, hc4,
            he.ne', hs.ne', one_div_div]
        · exact ⟨rfl, (lt_div_iff₀ heQ).mpr (by nlinarith)⟩
      · -- similar sizes
        refine ⟨.similarKeepExisting, ?_, ?_⟩
        · simp [compare_quality, h1, h2, hcodec, hs, hng2, hng65, hc2, hc4]
        · exact ⟨not_lt.mp hc4, by linarith⟩
  · -- existing strictly larger: spec ratio equals code ratio E/S
    have hmax : max s.file_size e.file_size = e.file_size := max_eq_right hlt.le
    have hmin : min s.file_size e.file_size = s.file_size := min_eq_left hlt.le
    have hltQ : (s.file_size:ℚ) < (e.file_size:ℚ) := by exact_mod_cast hlt
    have hr1 : 1 < (e.file_size:ℚ) / (s.file_size:ℚ) := (lt_div_iff₀ hsQ).mpr (by linarith)
    have hnlt : ¬ (e.file_size < s.file_size) := by omega
    have hnc2 : ¬ ((e.file_size:ℚ) / (s.file_size:ℚ) < 2⁻¹) := by
      push_neg; linarith
    have hnc4 : ¬ ((e.file_size:ℚ) / (s.file_size:ℚ) < 83/100) := by
      push_neg; linarith
    have hspec : specPrefersExisting s e =
        (if 2 < (e.file_size:ℚ) / (s.file_size:ℚ) then false
         else if 6/5 < (e.file_size:ℚ) / (s.file_size:ℚ) then false
         else true) := by
      simp only [specPrefersExisting, hmax, hmin]
      rw [if_neg h1, if_neg h2]
      rw [if_neg (by simp [hcodec]), if_neg (by simp [hcodec])]
      split_ifs <;> simp [hnlt]
    rw [hspec]
    by_cases hA : 2 < (e.file_size:ℚ) / (s.file_size:ℚ)
    · refine ⟨.exBloat ((e.file_size:ℚ) / (s.file_size:ℚ)), ?_, rfl, hA⟩
      simp [compare_quality, h1, h2, hcodec, hs, hA]
    · by_cases hB : 6/5 < (e.file_size:ℚ) / (s.file_size:ℚ)
      · refine ⟨.exLargerPreferSmaller ((e.file_size:ℚ) / (s.file_size:ℚ)), ?_, rfl, hB⟩
        simp [compare_quality, h1, h2, hcodec, hs, hA, hB, hnc2]
      · refine ⟨.similarKeepExisting, ?_, ?_⟩
        · simp [compare_quality, h1, h2, hcodec, hs, hA, hB, hnc2, hnc4]
        · exact ⟨not_lt.mp hnc4, by linarith⟩

/-- C2: for positive file sizes, `compare_quality` returns exactly the
`preferExisting` verdict dictated by the spec's decision order
(`specPrefersExisting`), together with a reason whose payloads name the
deciding factor truthfully. -/
theorem compare_quality_follows_spec (s e : QualityInfo)
    (hs : 0 < s.file_size) (he : 0 < e.file_size) :
    ∃ r, compare_quality s e = .ok (specPrefersExisting s e, r) ∧
      reasonNamesDecidingFactor s e r := by
  by_cases h1 : (s.pixels : ℚ) > (e.pixels : ℚ) * (11/10)
  · refine ⟨.srcHigherRes s.width s.height e.width e.height, ?_, ?_⟩
    · simp [compare_quality, specPrefersExisting, h1]
    · simp [reasonNamesDecidingFactor, h1]
  by_cases h2 : (e.pixels : ℚ) > (s.pixels : ℚ) * (11/10)
  · refine ⟨.exHigherRes e.width e.height s.width s.height, ?_, ?_⟩
    · simp [compare_quality, specPrefersExisting, h1, h2]
    · simp [reasonNamesDecidingFactor, h2]
  cases hsc : isHevcCodec s.codec with
  | true =>
    cases hec : isHevcCodec e.codec with
    | false =>
      refine ⟨.srcBetterCodec s.codec e.codec, ?_, ?_⟩
      · simp [compare_quality, specPrefersExisting, h1, h2, hsc, hec]
      · simp [reasonNamesDecidingFactor, hsc, hec]
    | true => exact size_ladder s e hs he (by rw [hsc, hec]) h1 h2
  | false =>
    cases hec : isHevcCodec e.codec with
    | true =>
      refine ⟨.exBetterCodec e.codec s.codec, ?_, ?_⟩
      · simp [compare_quality, specPrefersExisting, h1, h2, hsc, hec]
      · simp [reasonNamesDecidingFactor, hsc, hec]
    | false => exact size_ladder s e hs he (by rw [hsc, hec]) h1 h2

/-- Witness for `compare_quality_follows_spec`: the spec's re-encoded-bloat
scenario (same 1920x1080 H.265 content, existing 3x larger). -/
theorem compare_quality_follows_spec_witness :
    0 < (⟨"hevc", 1920, 1080, 0, 120, 300000000⟩ : QualityInfo).file_size ∧
    0 < (⟨"hevc", 1920, 1080, 0, 120, 900000000⟩ : QualityInfo).file_size ∧
    ∃ r, compare_quality ⟨"hevc", 1920, 1080, 0, 120, 300000000⟩
        ⟨"hevc", 1920, 1080, 0, 120, 900000000⟩ =
      .ok (specPrefersExisting ⟨"hevc", 1920, 1080, 0, 120, 300000000⟩
            ⟨"hevc", 1920, 1080, 0, 120, 900000000⟩, r) ∧
      reasonNamesDecidingFactor ⟨"hevc", 1920, 1080, 0, 120, 300000000⟩
        ⟨"hevc", 1920, 1080, 0, 120, 900000000⟩ r :=
  ⟨by norm_num, by norm_num,
    compare_quality_follows_spec _ _ (by norm_num) (by norm_num)⟩

/-- Candidates skipped with `continue` (missing, no duration, or duration
mismatch) at the head of the list do not affect the video loop's outcome. -/
theorem checkVideoCandidates_skip (cfg : DetectorConfig) (src : SourceFile)
    (source_size : ℕ) (sd : ℚ) (pre l : List Cand)
    (hpre : ∀ c' ∈ pre, videoSkip cfg sd c') :
    checkVideoCandidates cfg src source_size sd (pre ++ l) =
      checkVideoCandidates cfg src source_size sd l := by
  induction pre with
  | nil => rfl
  | cons c' pre ih =>
    have hrest : ∀ c'' ∈ pre, videoSkip cfg sd c'' :=
      fun c'' h => hpre c'' (List.mem_cons_of_mem _ h)
    simp only [List.cons_append, checkVideoCandidates]
    cases hex : c'.existsB with
    | false =>
      rw [if_pos (by simp [hex])]
      exact ih hrest
    | true =>
      rw [if_neg (by simp [hex])]
      rcases hpre c' (List.mem_cons_self c' pre) with hne | ⟨hstat, hdur⟩
      · rw [hex] at hne; exact absurd hne (by simp)
      · rcases hsz : c'.statSize with _ | sz
        · exact absurd hsz hstat
        · simp only [hsz]
          rcases hdur with hdn | ⟨cd, hcd, hgt⟩
          · simp only [hdn]
            exact ih hrest
          · simp only [hcd]
            rw [if_pos hgt]
            exact ih hrest

/-- The video loop returns the EXACT/HIGH result at a candidate whose
duration matches within tolerance and whose size-difference ratio is within
the size tolerance. -/
theorem checkVideoCandidates_hit (cfg : DetectorConfig) (src : SourceFile)
    (source_size : ℕ) (sd : ℚ) (c : Cand) (rest : List Cand) (cd : ℚ) (cs : ℕ)
    (hex : c.existsB = true) (hstat : c.statSize = some cs)
    (hdur : c.duration = some cd)
    (hdiff : |sd - cd| ≤ cfg.duration_tolerance)
    (hmin : ¬ min source_size cs = 0)
    (hsdp : |(source_size:ℚ) - (cs:ℚ)| / ((max source_size cs : ℕ) : ℚ) ≤
      cfg.size_tolerance) :
    checkVideoCandidates cfg src source_size sd (c :: rest) = .ok (some
      { is_duplicate := true
        confidence := if |(source_size:ℚ) - (cs:ℚ)| / ((max source_size cs : ℕ):ℚ) ≤ 1/100
          then .exact else .high
        existing_path := some c.path
        prefer_existing := true
        reason := .exactMatch sd
          (decide (|(source_size:ℚ) - (cs:ℚ)| / ((max source_size cs:ℕ):ℚ) ≤ 1/100)) }) := by
  simp only [checkVideoCandidates, hstat, hdur]
  rw [if_neg (by simp [hex]), if_neg (not_lt.mpr hdiff), if_neg hmin,
    if_pos hsdp]

/-- C1: for a video source with a date pattern and indexed candidates, if
candidate `c` is the first non-skipped candidate, its duration is within the
duration tolerance of the source's and `sizeDiffRatio = |sizeA-sizeB| /
max(sizeA,sizeB)` is within the size tolerance, then `find_duplicate` returns
`isDuplicate = true`, `preferExisting = true`, confidence `EXACT` when
`sizeDiffRatio ≤ 0.01` and `HIGH` otherwise, with `c` as the matched path —
and the result does not depend on the candidates after `c` (the list tail
`post` is arbitrary and absent from the conclusion). -/
theorem find_duplicate_first_size_match
    (cfg : DetectorConfig) (src : SourceFile) (index : String → List Cand)
    (pat : String) (pre post : List Cand) (c : Cand)
    (sd cd : ℚ) (s cs : ℕ)
    (hex : src.existsB = true)
    (hpat : extract_date_pattern src.name = some pat)
    (hidx : index pat = pre ++ c :: post)
    (hstat : src.statSize = some s)
    (hvid : src.isVideo = true)
    (hdur : src.duration = some sd)
    (hpre : ∀ c' ∈ pre, videoSkip cfg sd c')
    (hcex : c.existsB = true)
    (hcstat : c.statSize = some cs)
    (hcdur : c.duration = some cd)
    (hdiff : |sd - cd| ≤ cfg.duration_tolerance)
    (htol : cfg.size_tolerance < 1)
    (hmax : 0 < max s cs)
    (hsdp : |(s:ℚ) - (cs:ℚ)| / ((max s cs : ℕ) : ℚ) ≤ cfg.size_tolerance) :
    find_duplicate cfg src index = .ok
      { is_duplicate := true
        confidence := if |(s:ℚ) - (cs:ℚ)| / ((max s cs : ℕ):ℚ) ≤ 1/100
          then .exact else .high
        existing_path := some c.path
        prefer_existing := true
        reason := .exactMatch sd
          (decide (|(s:ℚ) - (cs:ℚ)| / ((max s cs:ℕ):ℚ) ≤ 1/100)) } := by
  have hmaxQ : (0:ℚ) < ((max s cs : ℕ):ℚ) := by exact_mod_cast hmax
  have habs : |(s:ℚ) - (cs:ℚ)| < ((max s cs:ℕ):ℚ) := by
    calc |(s:ℚ) - cs| ≤ cfg.size_tolerance * ((max s cs:ℕ):ℚ) := by
          rw [div_le_iff₀ hmaxQ] at hsdp; exact hsdp
      _ < 1 * ((max s cs:ℕ):ℚ) := mul_lt_mul_of_pos_right htol hmaxQ
      _ = _ := one_mul _
  have hmin : ¬ min s cs = 0 := by
    intro h0
    rcases Nat.min_eq_zero_iff.mp h0 with h | h
    · subst h
      push_cast at habs
      rw [zero_sub, abs_neg, abs_of_nonneg (by positivity : (0:ℚ) ≤ (cs:ℚ)),
        max_eq_right (by positivity : (0:ℚ) ≤ (cs:ℚ))] at habs
      exact lt_irrefl _ habs
    · subst h
      push_cast at habs
      rw [sub_zero, abs_of_nonneg (by positivity : (0:ℚ) ≤ (s:ℚ)),
        max_eq_left (by positivity : (0:ℚ) ≤ (s:ℚ))] at habs
      exact lt_irrefl _ habs
  have hloop : checkVideoCandidates cfg src s sd (pre ++ c :: post) = .ok (some
      { is_duplicate := true
        confidence := if |(s:ℚ) - (cs:ℚ)| / ((max s cs : ℕ):ℚ) ≤ 1/100
          then .exact else .high
        existing_path := some c.path
        prefer_existing := true
        reason := .exactMatch sd
          (decide (|(s:ℚ) - (cs:ℚ)| / ((max s cs:ℕ):ℚ) ≤ 1/100)) }) := by
    rw [checkVideoCandidates_skip cfg src s sd pre (c :: post) hpre]
    exact checkVideoCandidates_hit cfg src s sd c post cd cs hcex hcstat hcdur
      hdiff hmin hsdp
  simp only [find_duplicate, hpat]
  rw [if_neg (by simp [hex])]
  cases hpp : pre ++ c :: post with
  | nil => exact absurd hpp (by simp)
  | cons c₀ cs₀ =>
    rw [hpp] at hloop
    simp only [hidx, hpp, hstat, hvid, if_true, hdur, hloop]

/-- Witness for `find_duplicate_first_size_match`: the spec's exact-duplicate
video scenario (durations 120.0s vs 120.3s, sizes 500MB vs 498MB). -/
theorem find_duplicate_first_size_match_witness :
    |(120:ℚ) - 1203/10| ≤ 1 ∧
    |((500000000:ℕ):ℚ) - ((498000000:ℕ):ℚ)| /
      ((max 500000000 498000000 : ℕ):ℚ) ≤ 1/5 ∧
    find_duplicate {}
      ⟨"VID_20230101_120000.mp4", true, some 500000000, true, some 120, none⟩
      (fun _ => [⟨"/organized/PXL_20230101_120000.mp4", true, some 498000000,
        some (1203/10), none⟩]) =
      .ok { is_duplicate := true
            confidence := .exact
            existing_path := some "/organized/PXL_20230101_120000.mp4"
            prefer_existing := true
            reason := .exactMatch 120 true } := by
  refine ⟨by norm_num [abs_le], by norm_num [Nat.max_def], ?_⟩
  have h := find_duplicate_first_size_match {}
    ⟨"VID_20230101_120000.mp4", true, some 500000000, true, some 120, none⟩
    (fun _ => [⟨"/organized/PXL_20230101_120000.mp4", true, some 498000000,
      some (1203/10), none⟩])
    "20230101_120000" [] []
    ⟨"/organized/PXL_20230101_120000.mp4", true, some 498000000,
      some (1203/10), none⟩
    120 (1203/10) 500000000 498000000
    rfl (by decide) rfl rfl rfl rfl (by simp) rfl rfl rfl
    (by norm_num [abs_le]) (by norm_num) (by norm_num)
    (by norm_num [Nat.max_def])
  rw [h]
  norm_num [Nat.max_def]

/-- Jensen / Cauchy-Schwarz for a non-negative weight row summing to 1: the
windowed variance `E[x^2] - E[x]^2` is non-negative. -/
theorem wmean_sq_le {n : ℕ} (w x : Fin n → ℚ) (hw : ∀ q, 0 ≤ w q)
    (h1 : ∑ q, w q = 1) :
    wmean w x * wmean w x ≤ wmean w (fun q => x q * x q) := by
  have key : (∑ q : Fin n, w q * x q) ^ 2 ≤
      (∑ q : Fin n, w q) * ∑ q : Fin n, w q * x q ^ 2 :=
    Finset.sum_sq_le_sum_mul_sum_of_sq_eq_mul Finset.univ
      (fun q _ => hw q) (fun q _ => mul_nonneg (hw q) (sq_nonneg _))
      (fun q _ => by ring)
  rw [h1, one_mul] at key
  simp only [wmean]
  calc (∑ q : Fin n, w q * x q) * (∑ q : Fin n, w q * x q)
      = (∑ q : Fin n, w q * x q) ^ 2 := (sq _).symm
    _ ≤ ∑ q : Fin n, w q * x q ^ 2 := key
    _ = ∑ q : Fin n, w q * (x q * x q) :=
        Finset.sum_congr rfl (fun q _ => by ring)

/-- A weighted mean of non-negative pixels is non-negative. -/
theorem wmean_nonneg {n : ℕ} (w x : Fin n → ℚ) (hw : ∀ q, 0 ≤ w q)
    (hx : ∀ q, 0 ≤ x q) : 0 ≤ wmean w x :=
  Finset.sum_nonneg fun q _ => mul_nonneg (hw q) (hx q)

/-- Expansion of the windowed second moment of a pixelwise sum. -/
theorem wmean_add_expand {n : ℕ} (w x y : Fin n → ℚ) :
    wmean w (fun q => (x q + y q) * (x q + y q)) =
      wmean w (fun q => x q * x q) + 2 * wmean w (fun q => x q * y q) +
        wmean w (fun q => y q * y q) := by
  simp only [wmean, Finset.mul_sum, ← Finset.sum_add_distrib]
  exact Finset.sum_congr rfl (fun q _ => by ring)

/-- Expansion of the windowed second moment of a pixelwise difference. -/
theorem wmean_sub_expand {n : ℕ} (w x y : Fin n → ℚ) :
    wmean w (fun q => (x q - y q) * (x q - y q)) =
      wmean w (fun q => x q * x q) - 2 * wmean w (fun q => x q * y q) +
        wmean w (fun q => y q * y q) := by
  simp only [wmean, Finset.mul_sum, ← Finset.sum_add_distrib,
    ← Finset.sum_sub_distrib]
  exact Finset.sum_congr rfl (fun q _ => by ring)

/-- Linearity of the weighted mean over pixelwise sums. -/
theorem wmean_lin_add {n : ℕ} (w x y : Fin n → ℚ) :
    wmean w (fun q => x q + y q) = wmean w x + wmean w y := by
  simp only [wmean, ← Finset.sum_add_distrib]
  exact Finset.sum_congr rfl (fun q _ => by ring)

/-- Linearity of the weighted mean over pixelwise differences. -/
theorem wmean_lin_sub {n : ℕ} (w x y : Fin n → ℚ) :
    wmean w (fun q => x q - y q) = wmean w x - wmean w y := by
  simp only [wmean, ← Finset.sum_sub_distrib]
  exact Finset.sum_congr rfl (fun q _ => by ring)

/-- Windowed covariance bound: the variance of `x ± y` is non-negative. -/
theorem cov_add_nonneg {n : ℕ} (w x y : Fin n → ℚ) (hw : ∀ q, 0 ≤ w q)
    (h1 : ∑ q, w q = 1) :
    0 ≤ (wmean w (fun q => x q * x q) - wmean w x * wmean w x) +
        (wmean w (fun q => y q * y q) - wmean w y * wmean w y) +
        2 * (wmean w (fun q => x q * y q) - wmean w x * wmean w y) := by
  have h := wmean_sq_le w (fun q => x q + y q) hw h1
  rw [wmean_lin_add, wmean_add_expand] at h
  nlinarith [h]

theorem cov_sub_nonneg {n : ℕ} (w x y : Fin n → ℚ) (hw : ∀ q, 0 ≤ w q)
    (h1 : ∑ q, w q = 1) :
    0 ≤ (wmean w (fun q => x q * x q) - wmean w x * wmean w x) +
        (wmean w (fun q => y q * y q) - wmean w y * wmean w y) -
        2 * (wmean w (fun q => x q * y q) - wmean w x * wmean w y) := by
  have h := wmean_sq_le w (fun q => x q - y q) hw h1
  rw [wmean_lin_sub, wmean_sub_expand] at h
  nlinarith [h]

/-- Per-pixel SSIM map value lies in `[-1, 1]`. -/
theorem ssimMap_bounds {n : ℕ} (W : Fin n → Fin n → ℚ) (x y : Fin n → ℚ)
    (p : Fin n) (hW : ∀ q, 0 ≤ W p q) (h1 : ∑ q, W p q = 1)
    (hx : ∀ q, 0 ≤ x q) (hy : ∀ q, 0 ≤ y q) :
    -1 ≤ ssimMap W x y p ∧ ssimMap W x y p ≤ 1 := by
  have hs1 := wmean_sq_le (W p) x hW h1
  have hs2 := wmean_sq_le (W p) y hW h1
  have hadd := cov_add_nonneg (W p) x y hW h1
  have hsub := cov_sub_nonneg (W p) x y hW h1
  have hm1 := wmean_nonneg (W p) x hW hx
  have hm2 := wmean_nonneg (W p) y hW hy
  have hc1 : (0:ℚ) < ssimC1 := by norm_num [ssimC1]
  have hc2 : (0:ℚ) < ssimC2 := by norm_num [ssimC2]
  simp only [ssimMap]
  have hG1 : 0 < wmean (W p) x * wmean (W p) x +
      wmean (W p) y * wmean (W p) y + ssimC1 := by nlinarith
  have hG2 : 0 < (wmean (W p) (fun q => x q * x q) -
        wmean (W p) x * wmean (W p) x) +
      (wmean (W p) (fun q => y q * y q) - wmean (W p) y * wmean (W p) y) +
      ssimC2 := by nlinarith
  have hden : 0 < (wmean (W p) x * wmean (W p) x +
      wmean (W p) y * wmean (W p) y + ssimC1) *
      ((wmean (W p) (fun q => x q * x q) - wmean (W p) x * wmean (W p) x) +
        (wmean (W p) (fun q => y q * y q) - wmean (W p) y * wmean (W p) y) +
        ssimC2) := mul_pos hG1 hG2
  have hF1pos : 0 < 2 * (wmean (W p) x * wmean (W p) y) + ssimC1 := by nlinarith
  have hF1le : 2 * (wmean (W p) x * wmean (W p) y) + ssimC1 ≤
      wmean (W p) x * wmean (W p) x + wmean (W p) y * wmean (W p) y + ssimC1 := by
    nlinarith [sq_nonneg (wmean (W p) x - wmean (W p) y)]
  constructor
  · rw [le_div_iff₀ hden]
    nlinarith
  · rw [div_le_one hden]
    nlinarith

/-- Per-pixel SSIM of an image with itself is exactly 1. -/
theorem ssimMap_self {n : ℕ} (W : Fin n → Fin n → ℚ) (x : Fin n → ℚ)
    (p : Fin n) (hW : ∀ q, 0 ≤ W p q) (h1 : ∑ q, W p q = 1) :
    ssimMap W x x p = 1 := by
  have hs1 := wmean_sq_le (W p) x hW h1
  have hc1 : (0:ℚ) < ssimC1 := by norm_num [ssimC1]
  have hc2 : (0:ℚ) < ssimC2 := by norm_num [ssimC2]
  simp only [ssimMap]
  have hden : 0 < (wmean (W p) x * wmean (W p) x +
      wmean (W p) x * wmean (W p) x + ssimC1) *
      ((wmean (W p) (fun q => x q * x q) - wmean (W p) x * wmean (W p) x) +
        (wmean (W p) (fun q => x q * x q) - wmean (W p) x * wmean (W p) x) +
        ssimC2) := by
    apply mul_pos <;> nlinarith [mul_self_nonneg (wmean (W p) x)]
  rw [div_eq_one_iff_eq hden.ne']
  ring

/-- C7 (amended): with the blur window abstracted to any non-negative
row-stochastic weight matrix (true of the normalized 11x11 Gaussian kernel
with σ=1.5 the source uses) and pixel values non-negative (true of grayscale
data), the SSIM mean lies in `[-1, 1]` — not `[0, 1]` — self-similarity is
exactly 1 in exact arithmetic, and an unreadable input on either side yields
`None`. -/
theorem ssim_bounds_self_and_none {n : ℕ} (hn : 0 < n)
    (W : Fin n → Fin n → ℚ) (x y : Fin n → ℚ)
    (hW : ∀ p q, 0 ≤ W p q) (hW1 : ∀ p, ∑ q, W p q = 1)
    (hx : ∀ q, 0 ≤ x q) (hy : ∀ q, 0 ≤ y q) :
    (-1 ≤ ssimMean W x y ∧ ssimMean W x y ≤ 1) ∧
    ssimMean W x x = 1 ∧
    calculate_image_ssim W (some x) (some y) = some (ssimMean W x y) ∧
    (∀ img : Option (Fin n → ℚ), calculate_image_ssim W none img = none ∧
      calculate_image_ssim W img none = none) := by
  have hnQ : (0:ℚ) < (n:ℚ) := by exact_mod_cast hn
  refine ⟨⟨?_, ?_⟩, ?_, rfl, ?_⟩
  · rw [ssimMean, le_div_iff₀ hnQ]
    have hsum : ∑ p : Fin n, (-1 : ℚ) ≤ ∑ p, ssimMap W x y p :=
      Finset.sum_le_sum fun p _ =>
        (ssimMap_bounds W x y p (hW p) (hW1 p) hx hy).1
    simpa using hsum
  · rw [ssimMean, div_le_one hnQ]
    have hsum : ∑ p, ssimMap W x y p ≤ ∑ p : Fin n, (1 : ℚ) :=
      Finset.sum_le_sum fun p _ =>
        (ssimMap_bounds W x y p (hW p) (hW1 p) hx hy).2
    simpa using hsum
  · rw [ssimMean]
    have hsum : ∑ p, ssimMap W x x p = ∑ p : Fin n, (1 : ℚ) :=
      Finset.sum_congr rfl fun p _ => ssimMap_self W x p (hW p) (hW1 p)
    rw [hsum]
    simp [div_self hnQ.ne']
  · intro img
    constructor
    · rfl
    · cases img <;> rfl

/-- The 2x2 uniform averaging window (an admissible instance of the abstract
blur kernel: non-negative, rows summing to 1). -/
def cexW : Fin 2 → Fin 2 → ℚ := fun _ _ => 1/2

/-- A two-pixel 8-bit grayscale image: black then white. -/
def cexX : Fin 2 → ℚ := ![0, 255]

/-- The inverted image of `cexX`: white then black. -/
def cexY : Fin 2 → ℚ := ![255, 0]

/-- C7 (counterexample): for the anti-correlated pair `cexX`/`cexY` under the
admissible window `cexW`, the SSIM mean is negative, refuting the claimed
lower bound `0 ≤ similarity(a, b)`. -/
theorem ssim_negative_cex :
    (∀ p q, 0 ≤ cexW p q) ∧ (∀ p, ∑ q, cexW p q = 1) ∧
    (∀ p, 0 ≤ cexX p ∧ cexX p ≤ 255) ∧ (∀ p, 0 ≤ cexY p ∧ cexY p ≤ 255) ∧
    calculate_image_ssim cexW (some cexX) (some cexY) =
      some (ssimMean cexW cexX cexY) ∧
    ssimMean cexW cexX cexY < 0 := by
  refine ⟨by intro p q; norm_num [cexW], by intro p; norm_num [cexW, Fin.sum_univ_two],
    by intro p; fin_cases p <;> norm_num [cexX],
    by intro p; fin_cases p <;> norm_num [cexY], rfl, ?_⟩
  norm_num [ssimMean, ssimMap, wmean, cexW, cexX, cexY, ssimC1, ssimC2,
    Fin.sum_univ_two]

/-- The one-pixel identity window. -/
def oneW : Fin 1 → Fin 1 → ℚ := fun _ _ => 1

/-- The one-pixel black image. -/
def oneX : Fin 1 → ℚ := fun _ => 0

/-- Witness for `ssim_bounds_self_and_none` at the one-pixel black image with
the identity window. -/
theorem ssim_bounds_self_and_none_witness :
    (-1 ≤ ssimMean oneW oneX oneX ∧ ssimMean oneW oneX oneX ≤ 1) ∧
    ssimMean oneW oneX oneX = 1 ∧
    calculate_image_ssim oneW (some oneX) (some oneX) =
      some (ssimMean oneW oneX oneX) ∧
    (∀ img : Option (Fin 1 → ℚ),
      calculate_image_ssim oneW none img = none ∧
      calculate_image_ssim oneW img none = none) :=
  ssim_bounds_self_and_none (by norm_num) oneW oneX oneX
    (by intro p q; norm_num [oneW]) (by intro p; simp [oneW])
    (by intro q; norm_num [oneX]) (by intro q; norm_num [oneX])

end ProcessMedia
